import Mathlib

/-!
Verification of the attribute-descriptor / object-graph runtime of
py-capellambse against its design specification.

The repository sources at hand contain the metamodel declaration layer
(`capellambse/metamodel/*.py`) and the git credential helper
(`capellambse/filehandler/git_credhelper.py`).  The descriptor runtime
itself (`capellambse.model`) is only *used* by these files; where a
claim is decided by that runtime, the corresponding definition below is
modelled from the specification text and marked `Modelled from the
spec:` in its doc comment.  Everything else is translated directly from
the Python sources.
-/

namespace Capellambse

/-- Association-list lookup with decidable key equality: first value bound
to the key, if any.  Used to model Python dict / attribute lookups. -/
def assocLookup {α β : Type} [DecidableEq α] : List (α × β) → α → Option β
  | [], _ => none
  | (k, v) :: t, key => if k = key then some v else assocLookup t key

/-- Remove the first element satisfying `p`, keeping everything else in
order.  Models deleting one located node from an ordered child list. -/
def removeFirst {α : Type} (p : α → Bool) : List α → List α
  | [] => []
  | x :: t => if p x then t else x :: removeFirst p t

/-- The errors raised by the embedded code paths.  Constructors carry the
Python exception class they translate (`TypeError`, `BrokenModelError`,
`RuntimeError`, `SystemExit`) or the abstract error class named by the
specification taxonomy (`CardinalityError`, `AmbiguousResultError`). -/
inductive MErr where
  | typeError (msg : String)
  | brokenModelError (msg : String)
  | runtimeError (msg : String)
  | systemExit (code : Nat)
  | cardinalityError
  | ambiguousResultError (msg : String)
  deriving Repr, DecidableEq

/-- The `username=`/`password=` lines printed by the credential helper for
the `get` action: one line per environment variable that is set, username
first, echoing the variable values (git_credhelper.py lines 16-19). -/
def credLines (env : List (String × String)) : List String :=
  (match assocLookup env "GIT_USERNAME" with
   | some u => ["username=" ++ u]
   | none => []) ++
  (match assocLookup env "GIT_PASSWORD" with
   | some p => ["password=" ++ p]
   | none => [])

/-- `main` of capellambse/filehandler/git_credhelper.py, translated
statement by statement: with fewer than two argv entries it raises
`SystemExit(1)` (before anything is printed); otherwise it matches argv:
the cases `[]` and `[_]` re-raise `SystemExit(1)` (dead code after the
length guard), the case `[_, "get"]` — exactly two entries — prints the
credential lines, and any other argv falls through the match and returns
normally having printed nothing.  The result is the list of printed
lines, or the raised exception. -/
def credhelperMain (argv : List String) (env : List (String × String)) :
    Except MErr (List String) :=
  if argv.length < 2 then .error (.systemExit 1)
  else
    match argv with
    | [] => .error (.systemExit 1)
    | [_] => .error (.systemExit 1)
    | [_, action] => if action = "get" then .ok (credLines env) else .ok []
    | _ => .ok []

/-- `PhysicalLink.source` getter (cs.py lines 452-457): `self.ends[0]`,
with `IndexError` caught and turned into `None`. -/
def PhysicalLink.sourceGet (ends : List Nat) : Option Nat := ends[0]?

/-- `PhysicalLink.target` getter (cs.py lines 470-475): `self.ends[1]`,
with `IndexError` caught and turned into `None`. -/
def PhysicalLink.targetGet (ends : List Nat) : Option Nat := ends[1]?

/-- `PhysicalLink.source` setter (cs.py lines 459-468).  Returns the
outcome together with the `ends` list after the call: assigning `None`
raises `TypeError` (leaving `ends` untouched); on an empty list the new
end is appended; otherwise it replaces the first end. -/
def PhysicalLink.sourceSet (ends : List Nat) (newEnd : Option Nat) :
    Except MErr Unit × List Nat :=
  match newEnd with
  | none => (.error (.typeError "Cannot delete source of PhysicalLink"), ends)
  | some e =>
    match ends with
    | [] => (.ok (), [e])
    | _ :: rest => (.ok (), e :: rest)

/-- `PhysicalLink.target` setter (cs.py lines 477-491).  Assigning `None`
raises `TypeError`; assigning while `ends` is empty raises `TypeError`
(no source yet); with one end the new end is appended as the second;
otherwise it replaces the second end.  Error cases leave `ends`
untouched. -/
def PhysicalLink.targetSet (ends : List Nat) (newEnd : Option Nat) :
    Except MErr Unit × List Nat :=
  match newEnd with
  | none => (.error (.typeError "Cannot delete target of PhysicalLink"), ends)
  | some e =>
    match ends with
    | [] =>
      (.error (.typeError "Cannot set target on a PhysicalLink that has no source"), [])
    | [a] => (.ok (), [a, e])
    | a :: _ :: rest => (.ok (), a :: e :: rest)

/-- Modelled from the spec: the Identity Map (not among the given source
files; its contract is §4.2).  A per-model table from backing-node
identity to wrapper identity, together with a supply of fresh wrapper
identities. -/
structure IdentityMap where
  entries : List (Nat × Nat)
  nextFresh : Nat
  deriving Repr, DecidableEq

/-- Modelled from the spec: a freshly loaded Model starts with an empty
Identity Map. -/
def IdentityMap.empty : IdentityMap := ⟨[], 0⟩

/-- Modelled from the spec: `get_or_create(node)` — if an entry exists for
the node return its wrapper, otherwise construct a fresh wrapper, store
it, and return it (§4.2). -/
def IdentityMap.getOrCreate (m : IdentityMap) (node : Nat) : Nat × IdentityMap :=
  match assocLookup m.entries node with
  | some w => (w, m)
  | none => (m.nextFresh, ⟨m.entries ++ [(node, m.nextFresh)], m.nextFresh + 1⟩)

/-- Modelled from the spec: `invalidate(node)` — drop the entry for a
detached node; Identity Map entries are removed when nodes are removed
(§3 Lifecycle, §4.2). -/
def IdentityMap.invalidate (m : IdentityMap) (node : Nat) : IdentityMap :=
  ⟨m.entries.filter (fun p => p.1 ≠ node), m.nextFresh⟩

/-- A binding operation touching the Identity Map: resolving a node or
invalidating one (after a detach). -/
inductive IdOp where
  | resolve (node : Nat)
  | invalidate (node : Nat)

/-- Effect of one binding operation on the Identity Map. -/
def IdentityMap.applyOp (m : IdentityMap) : IdOp → IdentityMap
  | .resolve n => (m.getOrCreate n).2
  | .invalidate n => m.invalidate n

/-- Identity-Map state after a sequence of binding operations on a
freshly loaded Model. -/
def IdentityMap.run (ops : List IdOp) : IdentityMap :=
  ops.foldl IdentityMap.applyOp IdentityMap.empty

/-- The backing nodes that currently have a live wrapper. -/
def IdentityMap.liveNodes (m : IdentityMap) : List Nat :=
  m.entries.map Prod.fst

/-- Modelled from the spec: the Single binding (§4.8) guarding invariant
I6 together with `CardinalityError` (§7) — the stored relation holds 0
or 1 members and a mutation that would produce 2 is rejected before any
stored state changes.  `append` returns the outcome together with the
stored member list after the call. -/
def Single.append (st : List Nat) (x : Nat) : Except MErr Unit × List Nat :=
  match st with
  | [] => (.ok (), [x])
  | a :: rest => (.error .cardinalityError, a :: rest)

/-- One child node of an owner in the backing tree: node identity plus
qualified tag. -/
structure ChildNode where
  id : Nat
  tag : String
  deriving Repr, DecidableEq

/-- Modelled from the spec: Containment `get(owner)` (§4.4) — enumerate
the owner's children matching the target tag constraint, in child
(document) order. -/
def Containment.get (children : List ChildNode) (tag : String) : List ChildNode :=
  children.filter (fun c => c.tag == tag)

/-- Modelled from the spec: Containment `append` (§4.4) — create a node
of the constrained tag under the owner at the end of the child list. -/
def Containment.append (children : List ChildNode) (tag : String) (newId : Nat) :
    List ChildNode :=
  children ++ [⟨newId, tag⟩]

/-- Modelled from the spec: Containment `remove` (§4.4) — detach the
designated child from the owner's child list. -/
def Containment.remove (children : List ChildNode) (childId : Nat) : List ChildNode :=
  removeFirst (fun c => c.id == childId) children

/-- An Allocation link node: an owned intermediate node realizing one
logical edge.  `sourceRef` is the explicit source-reference attribute
(written only when a `backattr` is configured); `targetRef` is the
target-reference attribute. -/
structure LinkNode where
  id : Nat
  owner : Nat
  sourceRef : Option Nat
  targetRef : Nat
  deriving Repr, DecidableEq

/-- Modelled from the spec: the tree state an Allocation binding operates
on (§4.7) — the regular element nodes of the model plus the allocation
link nodes (each owned by its `owner` node), and a fresh-id supply. -/
structure AllocState where
  nodes : List Nat
  links : List LinkNode
  nextId : Nat
  deriving Repr, DecidableEq

/-- The logical source of a link node: its explicit source-reference
attribute if one was written, defaulting to the owning node. -/
def LinkNode.effectiveSource (l : LinkNode) : Nat :=
  l.sourceRef.getD l.owner

/-- Modelled from the spec: Allocation `get(owner)` (§4.7) — enumerate
the owner's link nodes, then follow each link's target-reference
attribute to the logical targets. -/
def Allocation.get (s : AllocState) (owner : Nat) : List Nat :=
  (s.links.filter (fun l => l.owner == owner)).map (fun l => l.targetRef)

/-- Modelled from the spec: Allocation `append(owner, target)` (§4.7) —
create a link node under the owner, set its target reference, and set
its source reference to the owner when a `backattr` is configured
(otherwise the source defaults to the owner implicitly). -/
def Allocation.append (s : AllocState) (owner target : Nat) (backattr : Bool) :
    AllocState :=
  { s with
    links := s.links ++ [⟨s.nextId, owner, if backattr then some owner else none, target⟩]
    nextId := s.nextId + 1 }

/-- Modelled from the spec: Allocation `remove(owner, target)` (§4.7) —
locate the link node under the owner whose target matches, and remove
that link node; never the endpoints. -/
def Allocation.remove (s : AllocState) (owner target : Nat) : AllocState :=
  { s with
    links := removeFirst (fun l => l.owner == owner && l.targetRef == target) s.links }

/-- A wrapper/object in the graph a Backref binding scans: node identity,
concrete class, and forward reference attributes (each attribute holds an
ordered list of referenced node identities). -/
structure BObj where
  id : Nat
  cls : String
  attrs : List (String × List Nat)
  deriving Repr, DecidableEq

/-- A model state as seen by the Backref binding: all wrappers, in
document order. -/
structure BState where
  objs : List BObj
  deriving Repr, DecidableEq

/-- The raw node identities a forward attribute of an object refers to. -/
def BObj.rawAttr (o : BObj) (name : String) : List Nat :=
  (assocLookup o.attrs name).getD []

/-- Resolve one forward attribute of an object to the referenced objects
present in the current state, in order. -/
def BState.getAttr (σ : BState) (o : BObj) (name : String) : List BObj :=
  (o.rawAttr name).flatMap (fun i => σ.objs.filter (fun t => t.id == i))

/-- Modelled from the spec: following a (possibly dotted) forward path
from an object (§4.6) — follow one relation, then the next, flattening
at each step.  A dotted path `"source.owner"` appears here as
`["source", "owner"]`. -/
def BState.follow (σ : BState) (o : BObj) : List String → List BObj
  | [] => [o]
  | n :: rest => (σ.getAttr o n).flatMap (fun t => σ.follow t rest)

/-- The scope a Backref scan runs over: every wrapper of the forward
relation's declared source class, in document order (§4.6). -/
def BState.scope (σ : BState) (cls : String) : List BObj :=
  σ.objs.filter (fun o => o.cls == cls)

/-- Modelled from the spec: Backref `get(target)` (§4.6) — scan the scope
implied by the declared source class and return every wrapper whose
forward path evaluates to the target, trying each of the declared paths
in turn and unioning matches.  Nothing is stored: the result is a pure
function of the current state, recomputed on each read. -/
def Backref.get (σ : BState) (cls : String) (paths : List (List String))
    (target : BObj) : List BObj :=
  (σ.scope cls).filter
    (fun b => paths.any (fun p => (σ.follow b p).any (fun r => r.id == target.id)))

/-- A wrapper as seen by the Filter/Alias layer: a flat store from field
name to member list. -/
structure WObj where
  fields : List (String × List Nat)
  deriving Repr, DecidableEq

/-- Read one stored field of a wrapper (absent fields read as empty). -/
def WObj.readField (o : WObj) (name : String) : List Nat :=
  (assocLookup o.fields name).getD []

/-- A mutation of the wrapper state: overwrite a stored field, or append
one member to it. -/
inductive WOp where
  | setField (name : String) (v : List Nat)
  | appendField (name : String) (x : Nat)

/-- Effect of one mutation on the wrapper state. -/
def WObj.applyOp (o : WObj) : WOp → WObj
  | .setField n v => ⟨o.fields.filter (fun p => p.1 ≠ n) ++ [(n, v)]⟩
  | .appendField n x => ⟨o.fields.filter (fun p => p.1 ≠ n) ++ [(n, o.readField n ++ [x])]⟩

/-- Wrapper state after a sequence of mutations. -/
def WObj.run (o : WObj) (ops : List WOp) : WObj :=
  ops.foldl WObj.applyOp o

/-- A field binding in a wrapper type's binding table: either backed by
its own storage, or — Modelled from the spec (§4.8) — an Alias, a pure
re-export of another field under a second name, holding no storage of
its own. -/
inductive FieldBinding where
  | stored (attr : String)
  | aliasOf (target : String)
  deriving Repr, DecidableEq

/-- Field dispatch through a binding table: a stored binding reads its
own storage; an Alias re-reads the aliased field through the same
dispatch at the same state.  `fuel` bounds alias chains. -/
def dispatch (tbl : List (String × FieldBinding)) (o : WObj) :
    Nat → String → List Nat
  | 0, _ => []
  | fuel + 1, name =>
    match assocLookup tbl name with
    | some (.stored attr) => o.readField attr
    | some (.aliasOf target) => dispatch tbl o fuel target
    | none => []

/-- Modelled from the spec: a DeprecatedAccessor read (§7,
`DeprecatedAccessorError` taxonomy entry) — reading a
retained-for-compatibility field name logs a warning and returns the
result of reading the replacement field.  Returns the value together
with the warning lines emitted. -/
def DeprecatedAccessor.get (readField : String → List Nat)
    (oldName replacement : String) : List Nat × List String :=
  (readField replacement,
   [oldName ++ " is deprecated, use " ++ replacement ++ " instead"])

/-- `_AbstractExchange.source` (fa.py lines 27-34): a property retained
for compatibility that unconditionally raises `TypeError` telling the
caller to use a concrete exchange class instead. -/
def AbstractExchange.sourceGet : Except MErr (List Nat) :=
  .error (.typeError
    ("AbstractExchange is deprecated and will be removed soon,"
     ++ " use the concrete FunctionalExchange or ComponentExchange"
     ++ " class or another common superclass instead"))

/-- `_AbstractExchange.target` (fa.py lines 36-42): same as the source
property — unconditionally raises `TypeError`. -/
def AbstractExchange.targetGet : Except MErr (List Nat) :=
  AbstractExchange.sourceGet

/-- `OperationalAnalysis.root_activity` (oa.py lines 75-100), translated
branch by branch: no activity package raises `BrokenModelError`; an
empty candidate list raises `BrokenModelError`; more than one candidate
raises `RuntimeError`; otherwise the sole candidate is returned.  The
argument is the activity package's activity list, or `none` when the
package itself is missing. -/
def OperationalAnalysis.rootActivity (activityPkg : Option (List Nat)) :
    Except MErr Nat :=
  match activityPkg with
  | none => .error (.brokenModelError "OperationalAnalysis has no root ActivityPkg")
  | some candidates =>
    if candidates.length < 1 then
      .error (.brokenModelError "ActivityPkg does not contain any Activities")
    else if candidates.length > 1 then
      .error (.runtimeError "Expected 1 object for OperationalAnalysis.root_activity")
    else .ok (candidates.headD 0)

/-- Modelled from the spec: the `single`-expecting Collection accessor
(§4.9, §7) — raise `AmbiguousResultError` when the match count is zero
or more than one, and return the unique match otherwise.  This is the
accessor behind `single=True` lookups such as
`SystemAnalysis.root_component` (sa.py lines 59-62). -/
def ElementList.getSingle (found : List Nat) : Except MErr Nat :=
  match found with
  | [x] => .ok x
  | _ => .error (.ambiguousResultError "did not match exactly one element")

theorem assocLookup_none_notkey {α β : Type} [DecidableEq α] :
    ∀ {l : List (α × β)} {k : α}, assocLookup l k = none → ∀ p ∈ l, p.1 ≠ k := by
  intro l k h p hp
  induction l with
  | nil => cases hp
  | cons q t ih =>
    rw [assocLookup] at h
    by_cases hq : q.1 = k
    · simp [hq] at h
    · rcases List.mem_cons.mp hp with rfl | hmem
      · exact hq
      · exact ih (by simpa [hq] using h) hmem

theorem assocLookup_append_right {α β : Type} [DecidableEq α]
    (l₁ l₂ : List (α × β)) (k : α) (h : assocLookup l₁ k = none) :
    assocLookup (l₁ ++ l₂) k = assocLookup l₂ k := by
  induction l₁ with
  | nil => rfl
  | cons q t ih =>
    rw [assocLookup] at h
    by_cases hq : q.1 = k
    · simp [hq] at h
    · simpa [assocLookup, hq] using ih (by simpa [hq] using h)

theorem removeFirst_append_of_not {α : Type} (p : α → Bool) (l₁ l₂ : List α)
    (h : ∀ x ∈ l₁, p x = false) :
    removeFirst p (l₁ ++ l₂) = l₁ ++ removeFirst p l₂ := by
  induction l₁ with
  | nil => simp
  | cons x t ih =>
    have hx : p x = false := h x (by simp)
    have ht : ∀ y ∈ t, p y = false := fun y hy => h y (by simp [hy])
    simp [removeFirst, hx, ih ht]

theorem removeFirst_length_of_mem {α : Type} (p : α → Bool) (l : List α) (x : α)
    (hx : x ∈ l) (hp : p x = true) :
    (removeFirst p l).length + 1 = l.length := by
  induction l with
  | nil => cases hx
  | cons y t ih =>
    by_cases hy : p y = true
    · simp [removeFirst, hy]
    · rcases List.mem_cons.mp hx with rfl | hmem
      · exact absurd hp hy
      · have := ih hmem
        simp only [removeFirst, if_neg hy, List.length_cons]
        omega

/-- Claim C9: on a PhysicalLink, reading `source` yields the first end
(absent when there are none) and reading `target` the second end (absent
when there are fewer than two); assigning `None` to `source` or `target`
raises `TypeError`, and assigning a target while the ends are empty
raises `TypeError`, each error leaving the ends unchanged; assigning
`source` appends on an empty ends list and otherwise replaces the first
end. -/
theorem physicalLink_source_target_spec (a b e : Nat) (rest ends : List Nat) :
    PhysicalLink.sourceGet [] = none ∧
    PhysicalLink.sourceGet (a :: rest) = some a ∧
    PhysicalLink.targetGet [] = none ∧
    PhysicalLink.targetGet [a] = none ∧
    PhysicalLink.targetGet (a :: b :: rest) = some b ∧
    PhysicalLink.sourceSet ends none
      = (.error (.typeError "Cannot delete source of PhysicalLink"), ends) ∧
    PhysicalLink.targetSet ends none
      = (.error (.typeError "Cannot delete target of PhysicalLink"), ends) ∧
    PhysicalLink.targetSet [] (some e)
      = (.error (.typeError "Cannot set target on a PhysicalLink that has no source"), []) ∧
    PhysicalLink.sourceSet [] (some e) = (.ok (), [e]) ∧
    PhysicalLink.sourceSet (a :: rest) (some e) = (.ok (), e :: rest) := by
  refine ⟨?_, ?_, ?_, ?_, ?_, rfl, rfl, rfl, rfl, rfl⟩ <;>
    simp [PhysicalLink.sourceGet, PhysicalLink.targetGet]

/-- Claim C10, counterexample: with three arguments whose second is
`"get"` and with `GIT_USERNAME` set, the credential helper prints
nothing — the argv match requires exactly two entries — contradicting
the claim that a second argument `"get"` always yields a `username=`
line when `GIT_USERNAME` is set. -/
theorem credhelper_counterexample :
    credhelperMain ["git-credhelper", "get", "extra"] [("GIT_USERNAME", "user")]
      = .ok [] ∧
    assocLookup [("GIT_USERNAME", "user")] "GIT_USERNAME" = some "user" :=
  ⟨rfl, rfl⟩

/-- Claim C10 (amended): with fewer than two arguments the helper exits
with status 1 printing nothing; with exactly two arguments whose second
is `"get"` it prints the `username=`/`password=` lines for exactly the
environment variables that are set; any other argument list of length at
least two — including a second argument `"get"` followed by further
arguments — prints nothing and returns normally. -/
theorem credhelper_spec (a b : String) (rest : List String)
    (env : List (String × String)) :
    credhelperMain [] env = .error (.systemExit 1) ∧
    credhelperMain [a] env = .error (.systemExit 1) ∧
    credhelperMain [a, "get"] env = .ok (credLines env) ∧
    credhelperMain (a :: "get" :: b :: rest) env = .ok [] ∧
    (b ≠ "get" → credhelperMain (a :: b :: rest) env = .ok []) := by
  refine ⟨rfl, rfl, rfl, rfl, fun hb => ?_⟩
  cases rest with
  | nil =>
    show (if b = "get" then (Except.ok (credLines env) : Except MErr (List String))
          else .ok []) = .ok []
    rw [if_neg hb]
  | cons c t => rfl

/-- Claim C3: appending to an empty Single-wrapped relation stores the
single member; a second sequential append — and generally any append to
a Single already holding a member — raises `CardinalityError` and leaves
the stored member intact, so the relation never reaches two members. -/
theorem single_cardinality_spec (x y a : Nat) (rest : List Nat) :
    Single.append [] x = (.ok (), [x]) ∧
    Single.append (a :: rest) y = (.error .cardinalityError, a :: rest) ∧
    Single.append (Single.append [] x).2 y = (.error .cardinalityError, [x]) :=
  ⟨rfl, rfl, rfl⟩

/-- Witness for claim C10 at a concrete input: a two-argument invocation
whose action is not `get` prints nothing and returns normally. -/
theorem credhelper_spec_witness :
    credhelperMain ["git-credhelper", "store", "x"] [] = .ok [] :=
  (credhelper_spec "git-credhelper" "store" ["x"] []).2.2.2.2 (by decide)

theorem identityMap_applyOp_nodup (m : IdentityMap) (op : IdOp)
    (h : m.liveNodes.Nodup) : (m.applyOp op).liveNodes.Nodup := by
  cases op with
  | resolve n =>
    simp only [IdentityMap.applyOp, IdentityMap.getOrCreate]
    cases hl : assocLookup m.entries n with
    | some w => simpa using h
    | none =>
      have hnot : n ∉ m.entries.map Prod.fst := by
        intro hmem
        rcases List.mem_map.mp hmem with ⟨p, hp, hpn⟩
        exact assocLookup_none_notkey hl p hp hpn
      simp only [IdentityMap.liveNodes, List.map_append, List.map_cons, List.map_nil]
      refine List.Nodup.append h (List.nodup_singleton n) ?_
      intro x hx hx1
      simp only [List.mem_singleton] at hx1
      subst hx1
      exact hnot hx
  | invalidate n =>
    simp only [IdentityMap.applyOp, IdentityMap.invalidate, IdentityMap.liveNodes]
    exact List.Nodup.sublist (List.Sublist.map _ (List.filter_sublist _)) h

theorem identityMap_run_nodup (ops : List IdOp) :
    (IdentityMap.run ops).liveNodes.Nodup := by
  suffices h : ∀ (m : IdentityMap), m.liveNodes.Nodup →
      (ops.foldl IdentityMap.applyOp m).liveNodes.Nodup by
    exact h IdentityMap.empty (by simp [IdentityMap.empty, IdentityMap.liveNodes])
  induction ops with
  | nil => exact fun m hm => hm
  | cons op t ih =>
    exact fun m hm => ih _ (identityMap_applyOp_nodup m op hm)

theorem identityMap_getOrCreate_stable (m : IdentityMap) (n : Nat) :
    ((m.getOrCreate n).2.getOrCreate n).1 = (m.getOrCreate n).1 := by
  unfold IdentityMap.getOrCreate
  cases hl : assocLookup m.entries n with
  | some w => simp [hl]
  | none =>
    simp only [hl]
    rw [assocLookup_append_right _ _ _ hl]
    simp [assocLookup]

/-- Claim C2: after any sequence of binding operations on a fresh Model,
at most one live wrapper exists per backing node (the Identity Map keys
are duplicate-free), and resolving the same node twice returns the
identical wrapper. -/
theorem identity_map_spec (ops : List IdOp) (n : Nat) :
    (IdentityMap.run ops).liveNodes.Nodup ∧
    (((IdentityMap.run ops).getOrCreate n).2.getOrCreate n).1
      = ((IdentityMap.run ops).getOrCreate n).1 :=
  ⟨identityMap_run_nodup ops, identityMap_getOrCreate_stable _ n⟩

/-- Claim C5: a Containment read enumerates matching children as an
in-order subsequence of the owner's child list (document order, no
reordering relative to other sibling types); appending three members
yields them in insertion order after any pre-existing matches, and
removing the middle one leaves the other two in their original relative
order. -/
theorem containment_order_spec (cs : List ChildNode) (tag : String) (a b c : Nat)
    (hab : a ≠ b) (hfresh : ∀ x ∈ cs, x.id ≠ b) :
    List.Sublist (Containment.get cs tag) cs ∧
    Containment.get
        (Containment.append (Containment.append (Containment.append cs tag a) tag b) tag c)
        tag
      = Containment.get cs tag ++ [⟨a, tag⟩, ⟨b, tag⟩, ⟨c, tag⟩] ∧
    Containment.get
        (Containment.remove
          (Containment.append (Containment.append (Containment.append cs tag a) tag b) tag c)
          b)
        tag
      = Containment.get cs tag ++ [⟨a, tag⟩, ⟨c, tag⟩] := by
  refine ⟨List.filter_sublist cs, ?_, ?_⟩
  · simp [Containment.get, Containment.append, List.filter_append]
  · have h1 : ∀ x ∈ cs ++ [(⟨a, tag⟩ : ChildNode)], (x.id == b) = false := by
      intro x hx
      rcases List.mem_append.mp hx with hx | hx
      · simpa using hfresh x hx
      · simp only [List.mem_singleton] at hx
        subst hx
        simpa using hab
    unfold Containment.remove Containment.append
    have hsplit :
        cs ++ [(⟨a, tag⟩ : ChildNode)] ++ [⟨b, tag⟩] ++ [⟨c, tag⟩]
          = (cs ++ [(⟨a, tag⟩ : ChildNode)]) ++ ((⟨b, tag⟩ : ChildNode) :: [⟨c, tag⟩]) := by
      simp
    rw [hsplit, removeFirst_append_of_not _ _ _ h1]
    simp [removeFirst, Containment.get, List.filter_append]

/-- Witness for claim C5 at a concrete input: a root with one child of
another tag, three appended children 1, 2, 3; removing the middle child
2 leaves children 1 and 3 in order. -/
theorem containment_order_witness :
    Containment.get
        (Containment.remove
          (Containment.append (Containment.append (Containment.append
            [(⟨99, "other"⟩ : ChildNode)] "ownedStates" 1) "ownedStates" 2) "ownedStates" 3)
          2)
        "ownedStates"
      = [⟨1, "ownedStates"⟩, ⟨3, "ownedStates"⟩] :=
  ((containment_order_spec [⟨99, "other"⟩] "ownedStates" 1 2 3 (by decide)
      (by decide)).2.2).trans (by decide)

/-- Claim C4: appending a target to an Allocation creates exactly one
link node under the owner whose target reference is the target and whose
source reference is the owner when a backattr is configured (otherwise
the source defaults to the owner); afterwards the read contains the
target exactly once; the subsequent remove deletes exactly that one link
node, leaving every element node — the target included — untouched. -/
theorem allocation_roundtrip_spec (s : AllocState) (owner target : Nat)
    (backattr : Bool) (hfresh : target ∉ Allocation.get s owner) :
    (Allocation.append s owner target backattr).links.length = s.links.length + 1 ∧
    (∀ i, LinkNode.effectiveSource
        ⟨i, owner, if backattr then some owner else none, target⟩ = owner) ∧
    (∀ l ∈ (Allocation.append s owner target backattr).links, l ∈ s.links ∨
      (l.owner = owner ∧ l.targetRef = target ∧
       l.sourceRef = (if backattr then some owner else none))) ∧
    (Allocation.get (Allocation.append s owner target backattr) owner).count target
      = (Allocation.get s owner).count target + 1 ∧
    (Allocation.get (Allocation.append s owner target backattr) owner).count target
      = 1 ∧
    (Allocation.remove (Allocation.append s owner target backattr) owner target).nodes
      = s.nodes ∧
    (Allocation.remove (Allocation.append s owner target backattr) owner target).links.length
      = s.links.length ∧
    (Allocation.remove (Allocation.append s owner target backattr) owner target).links
      = s.links := by
  have hget : Allocation.get (Allocation.append s owner target backattr) owner
      = Allocation.get s owner ++ [target] := by
    simp [Allocation.get, Allocation.append, List.filter_append]
  have hnomatch : ∀ l ∈ s.links,
      (l.owner == owner && l.targetRef == target) = false := by
    intro l hl
    by_contra hcon
    rw [Bool.not_eq_false, Bool.and_eq_true, beq_iff_eq, beq_iff_eq] at hcon
    refine hfresh ?_
    simp only [Allocation.get, List.mem_map]
    exact ⟨l, List.mem_filter.mpr ⟨hl, by simp [hcon.1]⟩, hcon.2⟩
  have hremove :
      (Allocation.remove (Allocation.append s owner target backattr) owner target).links
        = s.links := by
    simp only [Allocation.remove, Allocation.append]
    rw [removeFirst_append_of_not _ _ _ hnomatch]
    simp [removeFirst]
  refine ⟨by simp [Allocation.append], fun i => by cases backattr <;> rfl,
    ?_, ?_, ?_, rfl, ?_, hremove⟩
  · intro l hl
    simp only [Allocation.append, List.mem_append, List.mem_singleton] at hl
    rcases hl with hl | rfl
    · exact Or.inl hl
    · exact Or.inr ⟨rfl, rfl, rfl⟩
  · rw [hget]
    simp
  · rw [hget]
    have h0 : (Allocation.get s owner).count target = 0 :=
      List.count_eq_zero.mpr hfresh
    simp [h0]
  · rw [hremove]

/-- Witness for claim C4 at a concrete input: a model with element nodes
1 and 2 and no links; allocating 2 under 1 (with a backattr, as for
`allocated_functions`) yields a read containing 2 exactly once, and the
round trip restores the empty link list. -/
theorem allocation_roundtrip_witness :
    (Allocation.get (Allocation.append ⟨[1, 2], [], 10⟩ 1 2 true) 1).count 2 = 1 ∧
    (Allocation.remove (Allocation.append ⟨[1, 2], [], 10⟩ 1 2 true) 1 2).links = [] :=
  ⟨(allocation_roundtrip_spec ⟨[1, 2], [], 10⟩ 1 2 true (by decide)).2.2.2.2.1,
   (allocation_roundtrip_spec ⟨[1, 2], [], 10⟩ 1 2 true (by decide)).2.2.2.2.2.2.2⟩

/-- Claim C1: for every model state, a wrapper B of the Backref's
declared source class appears in A's Backref collection exactly when A
appears in the result of following one of the declared forward paths —
multi-attribute paths unioned, dotted paths followed relation by
relation — starting at B.  Quantifying over every state σ expresses that
the result is recomputed from the live forward relation on each read;
nothing is stored. -/
theorem backref_consistency_spec (σ : BState) (cls : String)
    (paths : List (List String)) (A B : BObj)
    (hmem : B ∈ σ.objs) (hcls : B.cls = cls) :
    B ∈ Backref.get σ cls paths A
      ↔ ∃ p ∈ paths, ∃ r ∈ σ.follow B p, r.id = A.id := by
  unfold Backref.get BState.scope
  rw [List.mem_filter, List.mem_filter]
  simp [hmem, hcls]

/-- Witness for claim C1 at a concrete input mirroring
`AbstractFunction.related_exchanges` (Backref over the dotted paths
`source.owner` and `target.owner`): the exchange whose source port is
owned by function 4 shows up in function 4's backref collection. -/
theorem backref_consistency_witness :
    (⟨1, "FunctionalExchange", [("source", [2]), ("target", [3])]⟩ : BObj) ∈
      Backref.get
        ⟨[⟨1, "FunctionalExchange", [("source", [2]), ("target", [3])]⟩,
          ⟨2, "FunctionInputPort", [("owner", [4])]⟩,
          ⟨3, "FunctionOutputPort", [("owner", [5])]⟩,
          ⟨4, "AbstractFunction", []⟩,
          ⟨5, "AbstractFunction", []⟩]⟩
        "FunctionalExchange" [["source", "owner"], ["target", "owner"]]
        ⟨4, "AbstractFunction", []⟩ :=
  (backref_consistency_spec _ _ _ _ _ (by decide) (by decide)).mpr (by decide)

/-- Claim C8: an Alias field reads through the binding table to the
aliased field at the same state, so after any sequence of mutations the
two reads return exactly the same member list — the alias holds no
independent state. -/
theorem alias_view_spec (tbl : List (String × FieldBinding)) (o : WObj)
    (ops : List WOp) (name target attr : String) (fuel : Nat)
    (h1 : assocLookup tbl name = some (.aliasOf target))
    (h2 : assocLookup tbl target = some (.stored attr)) :
    dispatch tbl (WObj.run o ops) (fuel + 1 + 1) name
      = dispatch tbl (WObj.run o ops) (fuel + 1 + 1) target := by
  simp only [dispatch, h1, h2]

/-- Witness for claim C8 at a concrete input mirroring
`FunctionalExchange.allocating_component_exchange`, an Alias of `owner`:
after a mutation of the underlying storage, the alias still reads the
same members as the aliased field. -/
theorem alias_view_witness :
    dispatch
        [("owner", .stored "ownerStore"),
         ("allocating_component_exchange", .aliasOf "owner")]
        (WObj.run ⟨[("ownerStore", [7])]⟩ [.setField "ownerStore" [9]]) 2
        "allocating_component_exchange"
      = dispatch
          [("owner", .stored "ownerStore"),
           ("allocating_component_exchange", .aliasOf "owner")]
          (WObj.run ⟨[("ownerStore", [7])]⟩ [.setField "ownerStore" [9]]) 2
          "owner" :=
  alias_view_spec _ _ _ _ _ "ownerStore" 0 (by decide) (by decide)

/-- Claim C6, counterexample: reading the retained-for-compatibility
`source` property of `_AbstractExchange` (fa.py lines 27-34) does not
succeed — it raises `TypeError` instead of warning and returning the
replacement field's value. -/
theorem deprecated_access_counterexample :
    AbstractExchange.sourceGet.toOption = (none : Option (List Nat)) := rfl

/-- Claim C6 (amended): fields retained through the DeprecatedAccessor
indirection (such as `function_package` for `function_pkg`) log exactly
one warning and return the replacement field's result, never blocking
the read; the `_AbstractExchange.source`/`target` compatibility
properties are the exception forced by the code — they always raise
`TypeError`. -/
theorem deprecated_access_spec (readField : String → List Nat)
    (oldName replacement : String) :
    (DeprecatedAccessor.get readField oldName replacement).1 = readField replacement ∧
    (DeprecatedAccessor.get readField oldName replacement).2.length = 1 ∧
    AbstractExchange.sourceGet
      = .error (.typeError
          ("AbstractExchange is deprecated and will be removed soon,"
           ++ " use the concrete FunctionalExchange or ComponentExchange"
           ++ " class or another common superclass instead")) ∧
    AbstractExchange.targetGet = AbstractExchange.sourceGet :=
  ⟨rfl, rfl, rfl, rfl⟩

/-- Claim C7: a single-expecting accessor errors exactly when the match
count is zero or more than one and returns the unique match otherwise:
the Collection accessor raises `AmbiguousResultError`, and
`OperationalAnalysis.root_activity` realizes the same contract over the
activity-package candidates with `BrokenModelError` (zero matches) and
`RuntimeError` (several matches). -/
theorem single_accessor_spec (found cands : List Nat) (x : Nat) :
    ElementList.getSingle [x] = .ok x ∧
    ((∃ e, ElementList.getSingle found = .error e) ↔ found.length ≠ 1) ∧
    OperationalAnalysis.rootActivity (some [x]) = .ok x ∧
    ((∃ e, OperationalAnalysis.rootActivity (some cands) = .error e)
      ↔ cands.length ≠ 1) := by
  refine ⟨rfl, ?_, rfl, ?_⟩
  · cases found with
    | nil => simp [ElementList.getSingle]
    | cons y t =>
      cases t with
      | nil => simp [ElementList.getSingle]
      | cons z t2 => simp [ElementList.getSingle]
  · cases cands with
    | nil => simp [OperationalAnalysis.rootActivity]
    | cons y t =>
      cases t with
      | nil => simp [OperationalAnalysis.rootActivity]
      | cons z t2 =>
        simp only [OperationalAnalysis.rootActivity]
        rw [if_neg (by simp), if_pos (by simp only [List.length_cons]; omega)]
        simp

end Capellambse
